import Mathlib

/-!
Verification development for the batched-deletion pipeline of
`src/server/server.js` (assuresign-mass-delete).

The JavaScript pipeline is embedded shallowly:
* `jsSlice` models `Array.prototype.slice(start, end)` with JS clamping rules;
* `chunkLoop`/`chunkArray` model the `for (let i = 0; i < arr.length; i += size)`
  loop of `chunkArray`, with an explicit fuel bound so that the (possibly
  non-terminating) loop is a total Lean function returning `none` when the
  fuel runs out before the loop exits;
* `chunksOf` is a structural description of the chunks produced for a
  positive size, proved equal to the loop;
* `buildSoapEnvelope` renders the SOAP document, with missing row fields
  (JS `undefined`) modelled by `Option` and the resulting `TypeError` by
  `Except`;
* `batchLoop`/`handleSendSoap` model the `POST /api/send-soap` handler, with
  the HTTP boundary (`fetch`, body reading) and the `xml2js` parser supplied
  as parameters.
-/

namespace AssureSign

/-- JS `arr.slice(start, end)`: negative indices count from the end and both
indices are clamped to `[0, arr.length]`. -/
def jsSlice {α : Type} (arr : List α) (start stop : Int) : List α :=
  let len : Int := arr.length
  let relStart : Int := if start < 0 then max (len + start) 0 else min start len
  let relEnd : Int := if stop < 0 then max (len + stop) 0 else min stop len
  (arr.drop relStart.toNat).take (relEnd - relStart).toNat

/-- The loop body of `chunkArray` in `server.js`:
`for (let i = 0; i < arr.length; i += size) chunks.push(arr.slice(i, i + size))`.
`fuel` bounds the number of loop-condition checks; the real loop corresponds
to unlimited fuel, and `none` means the loop has not finished within `fuel`
iterations. -/
def chunkLoop {α : Type} (arr : List α) (size : Int) :
    Nat → Int → List (List α) → Option (List (List α))
  | 0, _, _ => none
  | fuel + 1, i, chunks =>
    if i < (arr.length : Int) then
      chunkLoop arr size fuel (i + size) (chunks ++ [jsSlice arr i (i + size)])
    else
      some chunks

/-- Function `chunkArray(arr, size)` from `server.js`, run with `fuel` loop
iterations. -/
def chunkArray {α : Type} (arr : List α) (size : Int) (fuel : Nat) :
    Option (List (List α)) :=
  chunkLoop arr size fuel 0 []

/-- Structural form of the chunking performed by `chunkArray` for a positive
size: first `s` elements, then the chunks of the rest. -/
def chunksOf {α : Type} (s : Nat) : List α → List (List α)
  | [] => []
  | x :: xs => (x :: xs.take (s - 1)) :: chunksOf s (xs.drop (s - 1))
  termination_by l => l.length
  decreasing_by simp [Nat.lt_succ_iff]

/-- Strips leading whitespace characters from a character list. -/
def dropLeadingWs : List Char → List Char
  | [] => []
  | c :: cs => if c.isWhitespace then dropLeadingWs cs else c :: cs

/-- JS `String.prototype.trim()`: strips leading and trailing whitespace.
Implemented structurally over the character list so that it is
kernel-computable (the core `String.trim` is not). -/
def jsTrim (s : String) : String :=
  ⟨(dropLeadingWs ((dropLeadingWs s.data).reverse)).reverse⟩

/-- A JS runtime error thrown inside the per-batch `try` block. -/
inductive JsError : Type where
  | typeError (message : String)
  deriving DecidableEq

def JsError.message : JsError → String
  | .typeError m => m

/-- The `TypeError` thrown by `undefined.trim()`. -/
def trimTypeError : JsError := .typeError "Cannot read properties of undefined"

/-- One parsed spreadsheet row as the handler receives it. A missing field
(JS `undefined` from `row["EnvelopeId"]` / `row["AuthToken"]`) is `none`. -/
structure Row : Type where
  EnvelopeId : Option String
  AuthToken : Option String
  deriving DecidableEq

/-- The element produced for one row by the `data.map(...)` callback:
`<DeleteEnvelopeRequest ContextIdentifier="${contextId}"
EnvelopeId="${row["EnvelopeId"].trim()}"
EnvelopeAuthToken="${row["AuthToken"].trim()}" />`, throwing a `TypeError`
when a field is `undefined`. -/
def requestElement (contextId : String) (row : Row) : Except JsError String :=
  match row.EnvelopeId, row.AuthToken with
  | some e, some t =>
    .ok ("<DeleteEnvelopeRequest ContextIdentifier=\"" ++ contextId ++
      "\" EnvelopeId=\"" ++ jsTrim e ++ "\" EnvelopeAuthToken=\"" ++ jsTrim t ++ "\" />")
  | _, _ => .error trimTypeError

/-- The fixed template text before the interpolated `${data.map(...).join("")}`. -/
def envelopeHeader : String :=
  "<?xml version=\"1.0\" encoding=\"utf-8\"?>\n" ++
  "<s:Envelope xmlns:s=\"http://schemas.xmlsoap.org/soap/envelope/\">\n" ++
  "  <s:Body xmlns:xsi=\"http://www.w3.org/2001/XMLSchema-instance\" " ++
  "xmlns:xsd=\"http://www.w3.org/2001/XMLSchema\">\n" ++
  "    <DeleteEnvelope xmlns=\"https://www.assuresign.net/Services/DocumentNOW/Envelopes\">\n" ++
  "      <Requests>\n        "

/-- The fixed template text after the interpolation. -/
def envelopeFooter : String :=
  "\n      </Requests>\n    </DeleteEnvelope>\n  </s:Body>\n</s:Envelope>"

/-- Function `buildSoapEnvelope(data, contextId)` from `server.js`: the rows
are mapped to request elements in order (the first `undefined` field aborts
the map with a `TypeError`), joined with `""`, and spliced into the fixed
template. -/
def buildSoapEnvelope (data : List Row) (contextId : String) : Except JsError String := do
  let elems ← data.mapM (requestElement contextId)
  return envelopeHeader ++ String.join elems ++ envelopeFooter

/-- Outcome of `await fetch(...)` followed by body reading for one batch:
either a response (status, status text, and the result of reading the body
text, which itself can throw) or a thrown error — `AbortError` from the 30s
timeout, a connection error with code ENOTFOUND/ECONNREFUSED, or any other
exception. -/
inductive FetchOutcome : Type where
  | response (status : Nat) (statusText : String) (bodyText : Except JsError String)
  | abortError
  | connError (message : String)
  | otherError (message : String)

/-- One element of the `responses` array pushed by the handler. -/
inductive BatchResult (π : Type) : Type where
  | success (batch : Nat) (status : Nat) (rawResponse : String)
      (parsedResponse : Option π) (itemCount : Nat)
  | failure (batch : Nat) (error : String) (itemCount : Nat)
  deriving DecidableEq

def BatchResult.isSuccess {π : Type} : BatchResult π → Bool
  | .success .. => true
  | .failure .. => false

def BatchResult.batch {π : Type} : BatchResult π → Nat
  | .success b _ _ _ _ => b
  | .failure b _ _ => b

/-- Payload of an early `return res.status(...).json(...)` from inside the
batch loop: HTTP status, `error`, `details`, and `batch` fields. -/
structure ErrorBody : Type where
  httpStatus : Nat
  error : String
  details : String
  batch : Nat
  deriving DecidableEq

/-- The `for (let i = 0; i < chunks.length; i++)` loop of the handler.
`.error` is an early `return` (aborting the whole run); `.ok` is the final
`responses` array after every batch was attempted. XML parsing by `xml2js`
is the parameter `parse`; `parse body = none` models a parse failure. -/
def batchLoop {π : Type} (parse : String → Option π) (outcomes : Nat → FetchOutcome)
    (contextId : String) :
    List (List Row) → Nat → List (BatchResult π) → Except ErrorBody (List (BatchResult π))
  | [], _, responses => .ok responses
  | chunk :: rest, i, responses =>
    match buildSoapEnvelope chunk contextId with
    | .error e =>
      -- a TypeError thrown by buildSoapEnvelope lands in the catch block:
      -- its name is not AbortError and it has no ENOTFOUND/ECONNREFUSED
      -- code, so a failed batch is pushed and the loop continues
      batchLoop parse outcomes contextId rest (i + 1)
        (responses ++ [.failure (i + 1) e.message chunk.length])
    | .ok _xmlBody =>
      match outcomes i with
      | .abortError =>
        .error ⟨408, "Request timeout",
          "Batch " ++ toString (i + 1) ++ " timed out after 30 seconds", i + 1⟩
      | .connError message =>
        .error ⟨503, "Service unavailable",
          "Cannot connect to SOAP service: " ++ message, i + 1⟩
      | .otherError message =>
        batchLoop parse outcomes contextId rest (i + 1)
          (responses ++ [.failure (i + 1) message chunk.length])
      | .response status statusText bodyText =>
        if 200 ≤ status ∧ status ≤ 299 then
          match bodyText with
          | .error readErr =>
            .error ⟨500, "Failed to read SOAP response", readErr.message, i + 1⟩
          | .ok responseText =>
            batchLoop parse outcomes contextId rest (i + 1)
              (responses ++ [.success (i + 1) status responseText
                (parse responseText) chunk.length])
        else
          .error ⟨status,
            "SOAP service returned " ++ toString status ++ ": " ++ statusText,
            (match bodyText with
             | .ok t => t
             | .error readErr => "Could not read error response: " ++ readErr.message),
            i + 1⟩

/-- What the handler sends back to the client. -/
inductive ApiResponse (π : Type) : Type where
  | invalid (httpStatus : Nat) (error : String)
  | batchError (body : ErrorBody)
  | summary (success : Bool) (totalBatches : Nat) (totalItems : Nat)
      (successfulBatches : Nat) (results : List (BatchResult π))
  deriving DecidableEq

/-- The `POST /api/send-soap` handler. `data = none` models a missing or
non-array `data` field. `chunkArray(data, 50)` always terminates within
`data.length + 1` iterations, so that fuel is supplied and the `some` is
unwrapped (`chunkArray_eq_chunksOf` with `s = 50` shows the option is
always `some (chunksOf 50 d)`). -/
def handleSendSoap {π : Type} (parse : String → Option π) (outcomes : Nat → FetchOutcome)
    (data : Option (List Row)) (contextId : String) : ApiResponse π :=
  match data with
  | none => .invalid 400 "No valid data provided"
  | some d =>
    if contextId = "" then .invalid 400 "ContextId is required"
    else
      let chunks := (chunkArray d 50 (d.length + 1)).getD []
      match batchLoop parse outcomes contextId chunks 0 [] with
      | .error body => .batchError body
      | .ok responses =>
        .summary (responses.any (·.isSuccess)) chunks.length d.length
          ((responses.filter (·.isSuccess)).length) responses

/-- Shorthand for the element emitted for a present pair of fields. -/
def requestElementStr (contextId eid tok : String) : String :=
  "<DeleteEnvelopeRequest ContextIdentifier=\"" ++ contextId ++
    "\" EnvelopeId=\"" ++ jsTrim eid ++ "\" EnvelopeAuthToken=\"" ++ jsTrim tok ++ "\" />"

/-- Boolean test: is `p` an initial segment of `l`? -/
def startsWith : List Char → List Char → Bool
  | [], _ => true
  | _ :: _, [] => false
  | a :: ps, b :: ls => a == b && startsWith ps ls

/-- Boolean test: does `p` occur contiguously somewhere in `l`? -/
def occursIn (p : List Char) : List Char → Bool
  | [] => p.isEmpty
  | b :: ls => startsWith p (b :: ls) || occursIn p ls

/-- Boolean test: does `pat` occur contiguously in `s`? -/
def strOccurs (pat s : String) : Bool :=
  occursIn pat.data s.data

/-!  Lemmas about the chunker. -/

theorem chunksOf_nil {α : Type} (s : Nat) : chunksOf s ([] : List α) = [] := by
  simp [chunksOf]

theorem chunksOf_cons {α : Type} (s : Nat) (x : α) (xs : List α) :
    chunksOf s (x :: xs) = (x :: xs.take (s - 1)) :: chunksOf s (xs.drop (s - 1)) := by
  simp [chunksOf]

theorem chunksOf_eq_nil_iff {α : Type} (s : Nat) (l : List α) :
    chunksOf s l = [] ↔ l = [] := by
  cases l with
  | nil => simp [chunksOf_nil]
  | cons x xs => simp [chunksOf_cons]

/-- Concatenating the chunks recovers the input list. -/
theorem chunksOf_flatten {α : Type} (s : Nat) : ∀ (l : List α), (chunksOf s l).flatten = l
  | [] => by simp [chunksOf_nil]
  | x :: xs => by
    rw [chunksOf_cons, List.flatten_cons, chunksOf_flatten s (xs.drop (s - 1))]
    simp
  termination_by l => l.length
  decreasing_by simp [Nat.lt_succ_iff]

/-- There are exactly `⌈l.length / s⌉` chunks. -/
theorem chunksOf_length {α : Type} (s : Nat) (hs : 0 < s) :
    ∀ (l : List α), (chunksOf s l).length = (l.length + s - 1) / s
  | [] => by
    rw [chunksOf_nil]
    simp only [List.length_nil]
    rw [Nat.div_eq_of_lt (by omega)]
  | x :: xs => by
    rw [chunksOf_cons]
    simp only [List.length_cons]
    rw [chunksOf_length s hs (xs.drop (s - 1))]
    simp only [List.length_drop]
    rcases Nat.lt_or_ge xs.length (s - 1) with h | h
    · have h1 : xs.length - (s - 1) + s - 1 = s - 1 := by omega
      have h2 : xs.length + 1 + s - 1 = xs.length + s := by omega
      rw [h1, h2, Nat.add_div_right _ hs, Nat.div_eq_of_lt (by omega),
        Nat.div_eq_of_lt (by omega)]
    · have h1 : xs.length - (s - 1) + s - 1 = xs.length := by omega
      have h2 : xs.length + 1 + s - 1 = xs.length + s := by omega
      rw [h1, h2, Nat.add_div_right _ hs]
  termination_by l => l.length
  decreasing_by simp [Nat.lt_succ_iff]

/-- Every chunk has at most `s` elements. -/
theorem chunksOf_mem_length_le {α : Type} (s : Nat) (hs : 0 < s) :
    ∀ (l : List α), ∀ c ∈ chunksOf s l, c.length ≤ s
  | [] => by simp [chunksOf_nil]
  | x :: xs => by
    rw [chunksOf_cons]
    intro c hc
    rcases List.mem_cons.mp hc with rfl | hc
    · simp only [List.length_cons, List.length_take]
      omega
    · exact chunksOf_mem_length_le s hs (xs.drop (s - 1)) c hc
  termination_by l => l.length
  decreasing_by simp [Nat.lt_succ_iff]

/-- Every chunk except possibly the last has exactly `s` elements. -/
theorem chunksOf_getD_length {α : Type} (s : Nat) (hs : 0 < s) :
    ∀ (l : List α) (i : Nat), i + 1 < (chunksOf s l).length →
      ((chunksOf s l).getD i []).length = s
  | [], i => by simp [chunksOf_nil]
  | x :: xs, 0 => by
    intro h
    rw [chunksOf_cons] at h ⊢
    have htail : 0 < (chunksOf s (xs.drop (s - 1))).length := by
      simp only [List.length_cons] at h
      omega
    have hx : xs.drop (s - 1) ≠ [] := by
      intro he
      rw [he, chunksOf_nil] at htail
      simp at htail
    have hlen : s - 1 < xs.length := by
      by_contra hge
      push_neg at hge
      exact hx (List.drop_eq_nil_of_le hge)
    simp only [List.getD_cons_zero, List.length_cons, List.length_take]
    omega
  | x :: xs, i + 1 => by
    intro h
    rw [chunksOf_cons] at h ⊢
    simp only [List.getD_cons_succ]
    exact chunksOf_getD_length s hs (xs.drop (s - 1)) i (by simpa using h)
  termination_by l => l.length
  decreasing_by simp [Nat.lt_succ_iff]

/-- Unfolding `chunksOf` on a non-empty list in `take`/`drop` form. -/
theorem chunksOf_eq_cons {α : Type} (s : Nat) (hs : 0 < s) (l : List α) (h : l ≠ []) :
    chunksOf s l = l.take s :: chunksOf s (l.drop s) := by
  cases l with
  | nil => exact absurd rfl h
  | cons x xs =>
    rw [chunksOf_cons]
    obtain ⟨t, rfl⟩ : ∃ t, s = t + 1 := ⟨s - 1, by omega⟩
    simp [List.take_succ_cons, List.drop_succ_cons]

/-- Evaluating `jsSlice` at natural-number bounds gives `take` of `drop`. -/
theorem jsSlice_nat {α : Type} (arr : List α) (i s : Nat) :
    jsSlice arr (i : Int) ((i : Int) + (s : Int)) = (arr.drop i).take s := by
  have hi : ¬ ((i : Int) < 0) := by omega
  have his : ¬ ((i : Int) + (s : Int) < 0) := by omega
  simp only [jsSlice, if_neg hi, if_neg his]
  have e1 : (min (i : Int) (arr.length : Int)).toNat = min i arr.length := by omega
  have e2 : (min ((i : Int) + (s : Int)) (arr.length : Int) -
      min (i : Int) (arr.length : Int)).toNat = min (i + s) arr.length - min i arr.length := by
    omega
  rw [e1, e2]
  rcases Nat.le_total i arr.length with hle | hle
  · rw [Nat.min_eq_left hle, List.take_eq_take]
    simp only [List.length_drop]
    omega
  · rw [Nat.min_eq_right hle, List.drop_length, List.drop_eq_nil_of_le hle]
    simp

/-- For a positive size, the source loop terminates within `length + 1`
iterations and computes `chunksOf`. -/
theorem chunkLoop_eq_chunksOf {α : Type} (s : Nat) (hs : 0 < s) :
    ∀ (fuel : Nat) (arr : List α) (i : Nat) (acc : List (List α)),
      arr.length - i < fuel →
      chunkLoop arr (s : Int) fuel (i : Int) acc = some (acc ++ chunksOf s (arr.drop i))
  | 0, arr, i, acc => by
    intro h
    exact absurd h (Nat.not_lt_zero _)
  | fuel + 1, arr, i, acc => by
    intro h
    rw [chunkLoop]
    by_cases hc : i < arr.length
    · rw [if_pos (by exact_mod_cast hc)]
      have hcast : (i : Int) + (s : Int) = ((i + s : Nat) : Int) := by push_cast; ring
      rw [jsSlice_nat, hcast,
        chunkLoop_eq_chunksOf s hs fuel arr (i + s) (acc ++ [(arr.drop i).take s]) (by omega)]
      rw [chunksOf_eq_cons s hs (arr.drop i)
        (by simp only [ne_eq, List.drop_eq_nil_iff]; omega)]
      rw [List.drop_drop]
      simp [Nat.add_comm]
    · rw [if_neg (by exact_mod_cast hc)]
      rw [List.drop_eq_nil_of_le (by omega), chunksOf_nil]
      simp

/-- With a positive size and enough fuel, `chunkArray` returns `chunksOf`. -/
theorem chunkArray_eq_chunksOf {α : Type} (s : Nat) (hs : 0 < s) (arr : List α) :
    chunkArray arr (s : Int) (arr.length + 1) = some (chunksOf s arr) := by
  have h := chunkLoop_eq_chunksOf s hs (arr.length + 1) arr 0 [] (by omega)
  simpa [chunkArray] using h

/-- With a non-positive size and a non-empty array the loop condition
stays true forever (the index never increases), so no amount of fuel
makes the loop return. -/
theorem chunkLoop_nonpos_none {α : Type} :
    ∀ (fuel : Nat) (arr : List α) (size : Int), size ≤ 0 → arr ≠ [] →
      ∀ (i : Int), i ≤ 0 → ∀ (acc : List (List α)),
        chunkLoop arr size fuel i acc = none
  | 0, _, _, _, _, _, _, _ => rfl
  | fuel + 1, arr, size, hsz, hne, i, hi, acc => by
    have hlen : 0 < arr.length := List.length_pos.mpr hne
    have hlen' : (0 : Int) < (arr.length : Int) := by exact_mod_cast hlen
    rw [chunkLoop, if_pos (by omega)]
    exact chunkLoop_nonpos_none fuel arr size hsz hne (i + size) (by omega) _

/-!  Lemmas about the builder and the loop. -/

theorem except_bind_ok {ε α β : Type} (a : α) (f : α → Except ε β) :
    (Except.ok a >>= f : Except ε β) = f a := rfl

theorem except_bind_error {ε α β : Type} (e : ε) (f : α → Except ε β) :
    (Except.error e >>= f : Except ε β) = Except.error e := rfl

theorem except_pure {ε α : Type} (a : α) :
    (pure a : Except ε α) = Except.ok a := rfl

theorem string_join_singleton (s : String) : String.join [s] = s := rfl

theorem requestElement_ok (contextId eid tok : String) :
    requestElement contextId ⟨some eid, some tok⟩ =
      .ok (requestElementStr contextId eid tok) := rfl

theorem requestElement_missing (contextId : String) (r : Row)
    (h : r.EnvelopeId = none ∨ r.AuthToken = none) :
    requestElement contextId r = .error trimTypeError := by
  obtain ⟨e, t⟩ := r
  cases e <;> cases t <;> simp_all [requestElement]

theorem mapM_requestElement_ok (contextId : String) :
    ∀ (rows : List (String × String)),
      (rows.map fun p => Row.mk (some p.1) (some p.2)).mapM (requestElement contextId) =
        .ok (rows.map fun p => requestElementStr contextId p.1 p.2)
  | [] => rfl
  | p :: ps => by
    simp only [List.map_cons, List.mapM_cons, requestElement_ok, except_bind_ok,
      mapM_requestElement_ok contextId ps, except_pure]

theorem buildSoapEnvelope_ok (contextId : String) (rows : List (String × String)) :
    buildSoapEnvelope (rows.map fun p => Row.mk (some p.1) (some p.2)) contextId =
      .ok (envelopeHeader ++
        String.join (rows.map fun p => requestElementStr contextId p.1 p.2) ++
        envelopeFooter) := by
  simp only [buildSoapEnvelope, mapM_requestElement_ok contextId rows, except_bind_ok,
    except_pure]

theorem mapM_requestElement_missing (contextId : String) :
    ∀ (chunk : List Row), (∃ r ∈ chunk, r.EnvelopeId = none ∨ r.AuthToken = none) →
      chunk.mapM (requestElement contextId) = .error trimTypeError
  | [], h => absurd h (by simp)
  | r :: rs, h => by
    rw [List.mapM_cons]
    by_cases hr : r.EnvelopeId = none ∨ r.AuthToken = none
    · rw [requestElement_missing contextId r hr, except_bind_error]
    · have hrs : ∃ x ∈ rs, x.EnvelopeId = none ∨ x.AuthToken = none := by
        rcases h with ⟨x, hx, hfield⟩
        rcases List.mem_cons.mp hx with rfl | hx
        · exact absurd hfield hr
        · exact ⟨x, hx, hfield⟩
      push_neg at hr
      obtain ⟨e, t⟩ := r
      cases e with
      | none => exact absurd rfl hr.1
      | some eid =>
        cases t with
        | none => exact absurd rfl hr.2
        | some tok =>
          simp only [requestElement_ok, except_bind_ok,
            mapM_requestElement_missing contextId rs hrs, except_bind_error]

theorem buildSoapEnvelope_missing_field (contextId : String) (chunk : List Row)
    (h : ∃ r ∈ chunk, r.EnvelopeId = none ∨ r.AuthToken = none) :
    buildSoapEnvelope chunk contextId = .error trimTypeError := by
  simp only [buildSoapEnvelope, mapM_requestElement_missing contextId chunk h,
    except_bind_error]

/-- A run of the loop that attempted every batch appends one result per
chunk, numbered consecutively from `i + 1`. -/
theorem batchLoop_ok_shape {π : Type} (parse : String → Option π)
    (outcomes : Nat → FetchOutcome) (contextId : String) :
    ∀ (chunks : List (List Row)) (i : Nat) (acc resp : List (BatchResult π)),
      batchLoop parse outcomes contextId chunks i acc = .ok resp →
      ∃ t, resp = acc ++ t ∧ t.map (·.batch) = List.range' (i + 1) chunks.length
  | [], i, acc, resp, h => by
    simp only [batchLoop] at h
    cases h
    exact ⟨[], by simp⟩
  | chunk :: rest, i, acc, resp, h => by
    have step : ∀ (r : BatchResult π), r.batch = i + 1 →
        batchLoop parse outcomes contextId rest (i + 1) (acc ++ [r]) = .ok resp →
        ∃ t, resp = acc ++ t ∧
          t.map (·.batch) = List.range' (i + 1) (chunk :: rest).length := by
      intro r hr hrec
      obtain ⟨t', ht', hmap⟩ :=
        batchLoop_ok_shape parse outcomes contextId rest (i + 1) (acc ++ [r]) resp hrec
      refine ⟨r :: t', by simpa using ht', ?_⟩
      simp only [List.map_cons, hr, hmap, List.length_cons]
      rw [List.range'_succ]
    simp only [batchLoop] at h
    split at h
    · exact step _ (by rfl) h
    · split at h
      · cases h
      · cases h
      · exact step _ (by rfl) h
      · split at h
        · split at h
          · cases h
          · exact step _ (by rfl) h
        · cases h

/-- The chunk list the handler computes, in structural form. -/
theorem handler_chunks_eq (d : List Row) :
    (chunkArray d 50 (d.length + 1)).getD [] = chunksOf 50 d := by
  have h50 : ((50 : Nat) : Int) = (50 : Int) := rfl
  rw [← h50, chunkArray_eq_chunksOf 50 (by omega) d]
  rfl

/-!  Lemmas about substring occurrence. -/

theorem startsWith_append : ∀ (p l t : List Char),
    startsWith p l = true → startsWith p (l ++ t) = true
  | [], _, _, _ => rfl
  | _ :: _, [], _, h => by simp [startsWith] at h
  | a :: ps, b :: ls, t, h => by
    simp only [startsWith, Bool.and_eq_true] at h
    simp only [List.cons_append, startsWith, Bool.and_eq_true]
    exact ⟨h.1, startsWith_append ps ls t h.2⟩

theorem occursIn_of_empty : ∀ (l : List Char), occursIn [] l = true
  | [] => rfl
  | _ :: _ => by simp [occursIn, startsWith]

theorem occursIn_append_left (p : List Char) : ∀ (l t : List Char),
    occursIn p l = true → occursIn p (l ++ t) = true
  | [], t, h => by
    have hp : p = [] := by simpa [occursIn] using h
    subst hp
    simpa using occursIn_of_empty t
  | b :: ls, t, h => by
    simp only [occursIn, Bool.or_eq_true] at h
    simp only [List.cons_append, occursIn, Bool.or_eq_true]
    rcases h with h | h
    · exact Or.inl (by simpa using startsWith_append p (b :: ls) t h)
    · exact Or.inr (occursIn_append_left p ls t h)

theorem occursIn_append_right (p : List Char) : ∀ (l t : List Char),
    occursIn p t = true → occursIn p (l ++ t) = true
  | [], _, h => h
  | b :: ls, t, h => by
    simp only [List.cons_append, occursIn, Bool.or_eq_true]
    exact Or.inr (occursIn_append_right p ls t h)

theorem strOccurs_append_left (pat s u : String) (h : strOccurs pat s = true) :
    strOccurs pat (s ++ u) = true := by
  simp only [strOccurs, String.data_append]
  exact occursIn_append_left _ _ _ h

theorem strOccurs_append_right (pat s u : String) (h : strOccurs pat u = true) :
    strOccurs pat (s ++ u) = true := by
  simp only [strOccurs, String.data_append]
  exact occursIn_append_right _ _ _ h

theorem strOccurs_foldl_acc (pat : String) : ∀ (l : List String) (acc : String),
    strOccurs pat acc = true →
    strOccurs pat (l.foldl (fun r s => r ++ s) acc) = true
  | [], _, h => h
  | x :: xs, acc, h =>
    strOccurs_foldl_acc pat xs (acc ++ x) (strOccurs_append_left pat acc x h)

theorem strOccurs_foldl_of_mem (pat : String) : ∀ (l : List String) (acc x : String),
    x ∈ l → strOccurs pat x = true →
    strOccurs pat (l.foldl (fun r s => r ++ s) acc) = true
  | [], _, _, hx, _ => absurd hx (by simp)
  | y :: ys, acc, x, hx, h => by
    rcases List.mem_cons.mp hx with rfl | hx
    · exact strOccurs_foldl_acc pat ys (acc ++ x) (strOccurs_append_right pat acc x h)
    · exact strOccurs_foldl_of_mem pat ys (acc ++ y) x hx h

/-- A pattern occurring in some element occurs in the joined string. -/
theorem strOccurs_join_of_mem (pat : String) (l : List String) (x : String)
    (hx : x ∈ l) (h : strOccurs pat x = true) :
    strOccurs pat (String.join l) = true :=
  strOccurs_foldl_of_mem pat l "" x hx h

/-- A pattern occurring in the context identifier or in either trimmed field
value occurs in the emitted request element. -/
theorem requestElementStr_occurs (contextId eid tok pat : String)
    (h : strOccurs pat contextId = true ∨ strOccurs pat (jsTrim eid) = true ∨
      strOccurs pat (jsTrim tok) = true) :
    strOccurs pat (requestElementStr contextId eid tok) = true := by
  simp only [requestElementStr]
  rcases h with h | h | h
  · apply strOccurs_append_left
    apply strOccurs_append_left
    apply strOccurs_append_left
    apply strOccurs_append_left
    apply strOccurs_append_left
    exact strOccurs_append_right pat _ _ h
  · apply strOccurs_append_left
    apply strOccurs_append_left
    apply strOccurs_append_left
    exact strOccurs_append_right pat _ _ h
  · apply strOccurs_append_left
    exact strOccurs_append_right pat _ _ h

/-!  Claims. -/

/-- C3: for every finite sequence of records and every positive chunk size
`s`, the chunker terminates with exactly `⌈n/s⌉` chunks, each of length `s`
except possibly the last (and every chunk has length at most `s`), and the
concatenation of the chunks in order equals the original sequence, so no
record is dropped, duplicated, reordered, or shared between chunks. -/
theorem C3_chunking_correct {α : Type} (arr : List α) (s : Nat) (hs : 0 < s) :
    chunkArray arr (s : Int) (arr.length + 1) = some (chunksOf s arr) ∧
    (chunksOf s arr).length = (arr.length + s - 1) / s ∧
    (chunksOf s arr).flatten = arr ∧
    (∀ i : Nat, i + 1 < (chunksOf s arr).length →
      ((chunksOf s arr).getD i []).length = s) ∧
    (∀ c ∈ chunksOf s arr, c.length ≤ s) :=
  ⟨chunkArray_eq_chunksOf s hs arr, chunksOf_length s hs arr, chunksOf_flatten s arr,
    fun i h => chunksOf_getD_length s hs arr i h,
    fun c hc => chunksOf_mem_length_le s hs arr c hc⟩

theorem C3_chunking_correct_witness :
    0 < 2 ∧
    (chunkArray ([10, 11, 12, 13, 14] : List Nat) ((2 : Nat) : Int)
        (([10, 11, 12, 13, 14] : List Nat).length + 1) =
      some (chunksOf 2 [10, 11, 12, 13, 14]) ∧
    (chunksOf 2 ([10, 11, 12, 13, 14] : List Nat)).length =
      (([10, 11, 12, 13, 14] : List Nat).length + 2 - 1) / 2 ∧
    (chunksOf 2 ([10, 11, 12, 13, 14] : List Nat)).flatten = [10, 11, 12, 13, 14] ∧
    (∀ i : Nat, i + 1 < (chunksOf 2 ([10, 11, 12, 13, 14] : List Nat)).length →
      ((chunksOf 2 ([10, 11, 12, 13, 14] : List Nat)).getD i []).length = 2) ∧
    (∀ c ∈ chunksOf 2 ([10, 11, 12, 13, 14] : List Nat), c.length ≤ 2)) :=
  ⟨by decide, C3_chunking_correct [10, 11, 12, 13, 14] 2 (by decide)⟩

/-- C9: the source `chunkArray` performs no size validation at all. Called
with `size ≤ 0` on a non-empty array, the loop index never moves past `0`,
so for every fuel bound the loop has not returned: the call never
terminates, never fails with `InvalidInput`, and never produces a chunk
list. The claimed `InvalidInput` rejection is the contract stated by the
spec; the code diverges instead. -/
theorem C9_chunkArray_nonpos_diverges {α : Type} (arr : List α) (h : arr ≠ [])
    (size : Int) (hsize : size ≤ 0) (fuel : Nat) :
    chunkArray arr size fuel = none :=
  chunkLoop_nonpos_none fuel arr size hsize h 0 le_rfl []

theorem C9_chunkArray_nonpos_diverges_witness :
    ([0] : List Nat) ≠ [] ∧ (0 : Int) ≤ 0 ∧
    chunkArray ([0] : List Nat) 0 1000 = none :=
  ⟨by decide, by decide, C9_chunkArray_nonpos_diverges [0] (by decide) 0 (by decide) 1000⟩

/-- C5: for every chunk (given as its pairs of field values) and every
context identifier, the envelope builder emits exactly one request element
per record, in chunk order, each carrying the context identifier as
`ContextIdentifier` and the whitespace-trimmed `EnvelopeId` and `AuthToken`
of the record as attribute values. -/
theorem C5_one_element_per_record (contextId : String) (rows : List (String × String)) :
    buildSoapEnvelope (rows.map fun p => Row.mk (some p.1) (some p.2)) contextId =
      .ok (envelopeHeader ++
        String.join (rows.map fun p =>
          "<DeleteEnvelopeRequest ContextIdentifier=\"" ++ contextId ++
            "\" EnvelopeId=\"" ++ jsTrim p.1 ++
            "\" EnvelopeAuthToken=\"" ++ jsTrim p.2 ++ "\" />") ++
        envelopeFooter) :=
  buildSoapEnvelope_ok contextId rows

/-- C6 (original claim, refuted): a chunk containing a record with a missing
field is NOT surfaced immediately with no batches attempted. In this run the
first chunk (50 records, the first missing `AuthToken`) is recorded as an
ordinary failed Batch Result and the driver continues: the second chunk is
attempted, succeeds, and an overall Run Summary is returned. -/
theorem C6_counterexample :
    handleSendSoap (π := Unit) (fun _ => none)
      (fun _ => FetchOutcome.response 200 "OK" (Except.ok "resp"))
      (some (Row.mk (some "E1") none ::
        List.replicate 50 (Row.mk (some "E1") (some "T1")))) "CTX" =
    .summary true 2 51 1
      [.failure 1 trimTypeError.message 50,
       .success 2 200 "resp" none 1] := rfl

/-- C6 (amended): building the envelope for a chunk containing a record
whose `EnvelopeId` or `AuthToken` is absent fails with the `TypeError`
thrown by `undefined.trim()` — no malformed element is emitted — but the
error is caught by the per-batch handler, recorded as an ordinary failed
Batch Result for that batch, and the driver continues with the remaining
chunks (it is not surfaced immediately to the caller). -/
theorem C6_missing_field_is_per_batch_failure {π : Type} (parse : String → Option π)
    (outcomes : Nat → FetchOutcome) (contextId : String) (chunk : List Row)
    (rest : List (List Row)) (i : Nat) (acc : List (BatchResult π))
    (h : ∃ r ∈ chunk, r.EnvelopeId = none ∨ r.AuthToken = none) :
    buildSoapEnvelope chunk contextId = .error trimTypeError ∧
    batchLoop parse outcomes contextId (chunk :: rest) i acc =
      batchLoop parse outcomes contextId rest (i + 1)
        (acc ++ [.failure (i + 1) trimTypeError.message chunk.length]) := by
  have hb := buildSoapEnvelope_missing_field contextId chunk h
  refine ⟨hb, ?_⟩
  simp only [batchLoop, hb]

theorem C6_missing_field_is_per_batch_failure_witness :
    (∃ r ∈ [Row.mk (some "E1") none], r.EnvelopeId = none ∨ r.AuthToken = none) ∧
    (buildSoapEnvelope [Row.mk (some "E1") none] "CTX" = .error trimTypeError ∧
      batchLoop (π := Unit) (fun _ => none) (fun _ => FetchOutcome.abortError) "CTX"
          [[Row.mk (some "E1") none]] 0 [] =
        batchLoop (fun _ => none) (fun _ => FetchOutcome.abortError) "CTX" [] 1
          [.failure 1 trimTypeError.message 1]) :=
  have hex : ∃ r ∈ [Row.mk (some "E1") none], r.EnvelopeId = none ∨ r.AuthToken = none :=
    ⟨Row.mk (some "E1") none, by simp, Or.inr rfl⟩
  ⟨hex, C6_missing_field_is_per_batch_failure (fun _ => none)
    (fun _ => FetchOutcome.abortError) "CTX" [Row.mk (some "E1") none] [] 0 [] hex⟩

set_option maxRecDepth 32768 in
/-- C8 (original claim, refuted): the builder does not XML-escape any of the
three attribute values. With a double quote inside the context identifier,
the `EnvelopeId`, and the `AuthToken`, the emitted document contains the
raw, unescaped quote inside all three attributes
(`ContextIdentifier="CT"X"`, `EnvelopeId="a"b"`, `EnvelopeAuthToken="c"d"`)
and contains no `&quot;` or `&amp;` entity anywhere, so the output is not
well-formed XML. -/
theorem C8_counterexample :
    (buildSoapEnvelope [Row.mk (some "a\"b") (some "c\"d")] "CT\"X").toOption.map
        (strOccurs "ContextIdentifier=\"CT\"X\"") = some true ∧
    (buildSoapEnvelope [Row.mk (some "a\"b") (some "c\"d")] "CT\"X").toOption.map
        (strOccurs "EnvelopeId=\"a\"b\"") = some true ∧
    (buildSoapEnvelope [Row.mk (some "a\"b") (some "c\"d")] "CT\"X").toOption.map
        (strOccurs "EnvelopeAuthToken=\"c\"d\"") = some true ∧
    (buildSoapEnvelope [Row.mk (some "a\"b") (some "c\"d")] "CT\"X").toOption.map
        (strOccurs "&quot;") = some false ∧
    (buildSoapEnvelope [Row.mk (some "a\"b") (some "c\"d")] "CT\"X").toOption.map
        (strOccurs "&amp;") = some false := by
  refine ⟨by decide, by decide, by decide, by decide, by decide⟩

/-- C8 (amended): the builder interpolates all three attribute values
verbatim (the field values after trimming). For every chunk, every record
of the chunk, and every pattern occurring in the context identifier or in
the trimmed `EnvelopeId` or `AuthToken` of that record — including a double
quote, `<`, or `&`, or injected markup — the pattern occurs verbatim in the
produced document. -/
theorem C8_no_escaping (contextId : String) (rows : List (String × String)) (pat : String)
    (h : ∃ p ∈ rows, strOccurs pat contextId = true ∨
      strOccurs pat (jsTrim p.1) = true ∨ strOccurs pat (jsTrim p.2) = true) :
    ∃ out, buildSoapEnvelope (rows.map fun p => Row.mk (some p.1) (some p.2)) contextId =
        .ok out ∧
      strOccurs pat out = true := by
  obtain ⟨p, hp, hcase⟩ := h
  refine ⟨_, buildSoapEnvelope_ok contextId rows, ?_⟩
  apply strOccurs_append_left
  apply strOccurs_append_right
  exact strOccurs_join_of_mem pat _ (requestElementStr contextId p.1 p.2)
    (List.mem_map_of_mem _ hp) (requestElementStr_occurs contextId p.1 p.2 pat hcase)

theorem C8_no_escaping_witness :
    (∃ p ∈ [("E1", "T1"), ("x\"y", "T2\"z")], strOccurs "\"z" "CTX" = true ∨
      strOccurs "\"z" (jsTrim p.1) = true ∨ strOccurs "\"z" (jsTrim p.2) = true) ∧
    (∃ out, buildSoapEnvelope
        ([("E1", "T1"), ("x\"y", "T2\"z")].map fun p => Row.mk (some p.1) (some p.2))
        "CTX" = .ok out ∧
      strOccurs "\"z" out = true) :=
  have hex : ∃ p ∈ [("E1", "T1"), ("x\"y", "T2\"z")], strOccurs "\"z" "CTX" = true ∨
      strOccurs "\"z" (jsTrim p.1) = true ∨ strOccurs "\"z" (jsTrim p.2) = true :=
    ⟨("x\"y", "T2\"z"), by simp, Or.inr (Or.inr (by decide))⟩
  ⟨hex, C8_no_escaping "CTX" [("E1", "T1"), ("x\"y", "T2\"z")] "\"z" hex⟩

/-- C1 (original claim, refuted): a batch whose HTTP response carries a
non-success status is NOT recorded as a failed Batch Result with the run
continuing. In this run of two chunks (51 records), batch 1 receives HTTP
500 and the handler returns the error payload immediately: no Run Summary
is produced and batch 2 — whose outcome would have been a success — is
never attempted. -/
theorem C1_counterexample :
    handleSendSoap (π := Unit) (fun _ => none)
      (fun i => if i = 0 then FetchOutcome.response 500 "Internal Server Error" (Except.ok "boom")
        else FetchOutcome.response 200 "OK" (Except.ok "fine"))
      (some (List.replicate 51 (Row.mk (some "E1") (some "T1")))) "CTX" =
    .batchError ⟨500, "SOAP service returned 500: Internal Server Error", "boom", 1⟩ := rfl

/-- C1 (amended): when the batch at index `i` receives a response with a
non-success HTTP status, the driver aborts the run at that batch: it
returns an error payload carrying the status code, the status text, the
body text, and the 1-based batch number — independently of the remaining
chunks, so no later batch is ever attempted and no failed Batch Result is
recorded. -/
theorem C1_remote_error_aborts {π : Type} (parse : String → Option π)
    (outcomes : Nat → FetchOutcome) (contextId : String) (chunk : List Row)
    (rest : List (List Row)) (i : Nat) (acc : List (BatchResult π))
    (status : Nat) (statusText body : String)
    (hbuild : ∃ xml, buildSoapEnvelope chunk contextId = .ok xml)
    (hout : outcomes i = .response status statusText (.ok body))
    (hstatus : ¬ (200 ≤ status ∧ status ≤ 299)) :
    batchLoop parse outcomes contextId (chunk :: rest) i acc =
      .error ⟨status, "SOAP service returned " ++ toString status ++ ": " ++ statusText,
        body, i + 1⟩ := by
  obtain ⟨xml, hbuild⟩ := hbuild
  simp only [batchLoop, hbuild, hout, if_neg hstatus]

theorem C1_remote_error_aborts_witness :
    (∃ xml, buildSoapEnvelope [Row.mk (some "E1") (some "T1")] "CTX" = .ok xml) ∧
    batchLoop (π := Unit) (fun _ => none)
      (fun _ => FetchOutcome.response 500 "Internal Server Error" (Except.ok "oops"))
      "CTX" [[Row.mk (some "E1") (some "T1")], [Row.mk (some "E2") (some "T2")]] 0 [] =
    .error ⟨500, "SOAP service returned " ++ toString 500 ++ ": " ++ "Internal Server Error",
      "oops", 0 + 1⟩ :=
  ⟨⟨_, rfl⟩,
    C1_remote_error_aborts (fun _ => none)
      (fun _ => FetchOutcome.response 500 "Internal Server Error" (Except.ok "oops"))
      "CTX" [Row.mk (some "E1") (some "T1")] [[Row.mk (some "E2") (some "T2")]] 0 []
      500 "Internal Server Error" "oops" ⟨_, rfl⟩ rfl (by decide)⟩

/-- C2: when the batch at index `i` is classified as a timeout (`AbortError`)
or as service-unavailable (connection error), the driver aborts the entire
run immediately with the corresponding error payload (HTTP 408 resp. 503)
reporting the 1-based number of the failing batch — independently of the
remaining chunks, so no later batch is ever attempted. -/
theorem C2_fatal_aborts {π : Type} (parse : String → Option π)
    (outcomes : Nat → FetchOutcome) (contextId : String) (chunk : List Row)
    (rest : List (List Row)) (i : Nat) (acc : List (BatchResult π))
    (hbuild : ∃ xml, buildSoapEnvelope chunk contextId = .ok xml) :
    (outcomes i = .abortError →
      batchLoop parse outcomes contextId (chunk :: rest) i acc =
        .error ⟨408, "Request timeout",
          "Batch " ++ toString (i + 1) ++ " timed out after 30 seconds", i + 1⟩) ∧
    (∀ m, outcomes i = .connError m →
      batchLoop parse outcomes contextId (chunk :: rest) i acc =
        .error ⟨503, "Service unavailable",
          "Cannot connect to SOAP service: " ++ m, i + 1⟩) := by
  obtain ⟨xml, hbuild⟩ := hbuild
  constructor
  · intro h
    simp only [batchLoop, hbuild, h]
  · intro m h
    simp only [batchLoop, hbuild, h]

theorem C2_fatal_aborts_witness :
    (∃ xml, buildSoapEnvelope [Row.mk (some "E1") (some "T1")] "CTX" = .ok xml) ∧
    batchLoop (π := Unit) (fun _ => none) (fun _ => FetchOutcome.abortError) "CTX"
      [[Row.mk (some "E1") (some "T1")], [Row.mk (some "E2") (some "T2")]] 0 [] =
    .error ⟨408, "Request timeout",
      "Batch " ++ toString (0 + 1) ++ " timed out after 30 seconds", 0 + 1⟩ :=
  ⟨⟨_, rfl⟩,
    (C2_fatal_aborts (fun _ => none) (fun _ => FetchOutcome.abortError) "CTX"
      [Row.mk (some "E1") (some "T1")] [[Row.mk (some "E2") (some "T2")]] 0 []
      ⟨_, rfl⟩).1 rfl⟩

/-- C7: when the batch at index `i` receives a success-status response whose
body is readable but not parseable as XML (`parse body = none`), the pushed
Batch Result still has `success = true` with `parsedResponse` absent, and
the loop continues with the remaining chunks exactly as after any
successful batch. -/
theorem C7_parse_failure_nonfatal {π : Type} (parse : String → Option π)
    (outcomes : Nat → FetchOutcome) (contextId : String) (chunk : List Row)
    (rest : List (List Row)) (i : Nat) (acc : List (BatchResult π))
    (status : Nat) (statusText body : String)
    (hbuild : ∃ xml, buildSoapEnvelope chunk contextId = .ok xml)
    (hout : outcomes i = .response status statusText (.ok body))
    (hstatus : 200 ≤ status ∧ status ≤ 299)
    (hparse : parse body = none) :
    batchLoop parse outcomes contextId (chunk :: rest) i acc =
      batchLoop parse outcomes contextId rest (i + 1)
        (acc ++ [.success (i + 1) status body none chunk.length]) := by
  obtain ⟨xml, hbuild⟩ := hbuild
  simp only [batchLoop, hbuild, hout, if_pos hstatus, hparse]

theorem C7_parse_failure_nonfatal_witness :
    (∃ xml, buildSoapEnvelope [Row.mk (some "E1") (some "T1")] "CTX" = .ok xml) ∧
    batchLoop (π := Unit) (fun _ => none)
      (fun _ => FetchOutcome.response 200 "OK" (Except.ok "not xml")) "CTX"
      [[Row.mk (some "E1") (some "T1")]] 0 [] =
    batchLoop (fun _ => none)
      (fun _ => FetchOutcome.response 200 "OK" (Except.ok "not xml")) "CTX"
      [] (0 + 1) ([] ++ [.success (0 + 1) 200 "not xml" none 1]) :=
  ⟨⟨_, rfl⟩,
    C7_parse_failure_nonfatal (fun _ => none)
      (fun _ => FetchOutcome.response 200 "OK" (Except.ok "not xml")) "CTX"
      [Row.mk (some "E1") (some "T1")] [] 0 [] 200 "OK" "not xml"
      ⟨_, rfl⟩ rfl (by decide) rfl⟩

/-- C4: whenever the loop attempted every batch (it returned `.ok resp`
rather than an early error), the handler returns a Run Summary whose
overall flag is true iff some Batch Result succeeded, whose
`successfulBatches` counts the successful Batch Results, whose
`totalBatches` is the number of chunks, whose `totalItems` is the number of
input records, and whose `results` lists exactly one Batch Result per
attempted batch, numbered `1..totalBatches` in submission order. -/
theorem C4_run_summary {π : Type} (parse : String → Option π)
    (outcomes : Nat → FetchOutcome) (contextId : String) (d : List Row)
    (resp : List (BatchResult π)) (hctx : contextId ≠ "")
    (hloop : batchLoop parse outcomes contextId
      ((chunkArray d 50 (d.length + 1)).getD []) 0 [] = .ok resp) :
    handleSendSoap parse outcomes (some d) contextId =
      .summary (resp.any (·.isSuccess)) ((chunkArray d 50 (d.length + 1)).getD []).length
        d.length ((resp.filter (·.isSuccess)).length) resp ∧
    (resp.any (·.isSuccess) = true ↔ ∃ r ∈ resp, r.isSuccess = true) ∧
    resp.length = ((chunkArray d 50 (d.length + 1)).getD []).length ∧
    resp.map (·.batch) = List.range' 1 ((chunkArray d 50 (d.length + 1)).getD []).length := by
  obtain ⟨t, ht, hmap⟩ :=
    batchLoop_ok_shape parse outcomes contextId _ 0 [] resp hloop
  simp only [List.nil_append] at ht
  subst ht
  refine ⟨?_, List.any_eq_true, ?_, by simpa using hmap⟩
  · simp only [handleSendSoap, if_neg hctx, hloop]
  · have hlen := congrArg List.length hmap
    simpa using hlen

theorem C4_run_summary_witness :
    ("CTX" : String) ≠ "" ∧
    batchLoop (π := Unit) (fun _ => none)
      (fun _ => FetchOutcome.response 200 "OK" (Except.ok "body")) "CTX"
      ((chunkArray [Row.mk (some "E1") (some "T1")] 50
        ([Row.mk (some "E1") (some "T1")].length + 1)).getD []) 0 [] =
      .ok [.success 1 200 "body" none 1] ∧
    (handleSendSoap (π := Unit) (fun _ => none)
        (fun _ => FetchOutcome.response 200 "OK" (Except.ok "body"))
        (some [Row.mk (some "E1") (some "T1")]) "CTX" =
      .summary (([.success 1 200 "body" none 1] : List (BatchResult Unit)).any (·.isSuccess))
        ((chunkArray [Row.mk (some "E1") (some "T1")] 50
          ([Row.mk (some "E1") (some "T1")].length + 1)).getD []).length
        [Row.mk (some "E1") (some "T1")].length
        (([.success 1 200 "body" none 1] : List (BatchResult Unit)).filter (·.isSuccess)).length
        [.success 1 200 "body" none 1] ∧
    (([.success 1 200 "body" none 1] : List (BatchResult Unit)).any (·.isSuccess) = true ↔
      ∃ r ∈ ([.success 1 200 "body" none 1] : List (BatchResult Unit)), r.isSuccess = true) ∧
    ([.success 1 200 "body" none 1] : List (BatchResult Unit)).length =
      ((chunkArray [Row.mk (some "E1") (some "T1")] 50
        ([Row.mk (some "E1") (some "T1")].length + 1)).getD []).length ∧
    ([.success 1 200 "body" none 1] : List (BatchResult Unit)).map (·.batch) =
      List.range' 1 ((chunkArray [Row.mk (some "E1") (some "T1")] 50
        ([Row.mk (some "E1") (some "T1")].length + 1)).getD []).length) :=
  ⟨by decide, rfl,
    C4_run_summary (fun _ => none)
      (fun _ => FetchOutcome.response 200 "OK" (Except.ok "body")) "CTX"
      [Row.mk (some "E1") (some "T1")] [.success 1 200 "body" none 1]
      (by decide) rfl⟩

/-- C10: for an empty records array (with a non-empty contextId), the
handler computes zero chunks, the loop attempts zero batches (the fetch
outcomes are never consulted — `outcomes` is universally quantified), and
the result is a Run Summary — not a validation error — with an empty
results list, `totalBatches = 0`, `totalItems = 0`, zero successful
batches, and overall success flag `false`. -/
theorem C10_empty_records {π : Type} (parse : String → Option π)
    (outcomes : Nat → FetchOutcome) (contextId : String) (hctx : contextId ≠ "") :
    handleSendSoap parse outcomes (some []) contextId = .summary false 0 0 0 [] := by
  simp only [handleSendSoap, if_neg hctx]
  rfl

theorem C10_empty_records_witness :
    ("CTX" : String) ≠ "" ∧
    handleSendSoap (π := Unit) (fun _ => none) (fun _ => FetchOutcome.abortError)
      (some []) "CTX" = .summary false 0 0 0 [] :=
  ⟨by decide, C10_empty_records (fun _ => none) (fun _ => FetchOutcome.abortError)
    "CTX" (by decide)⟩

end AssureSign
